import Mathlib

/-!
Verification development for the BrowserOS knowledge-base toolkit.

This file gives a shallow embedding of the configuration loader
(`scripts/config_loader.py`), the configuration manager
(`scripts/config_manager.py`), the agent connector resolver
(`scripts/agent_connectors.py`) and the resilience utilities
(`scripts/utils/resilience.py`), and proves or refutes the frozen
claims about them.

Conventions of the embedding:
* Python strings are `String` or `List Char` (the latter where proofs
  walk the characters).
* Python exceptions are the inductive `PyExc`; fallible code returns
  `Except PyExc _`.
* External effects (HTTP requests, subprocess runs, file reads) are
  passed in as explicit outcome values of type `Except PyExc _`; the
  embedded functions describe exactly what the Python code does with
  each possible outcome.
* Python truthiness of optional strings: `None` and the empty string
  are falsy.
-/

deriving instance DecidableEq for Except

namespace BrowserOSKB

/-- Python exception classes that the modelled code can raise or catch.
`ioError` is not listed separately: in Python 3, `IOError` is an alias
of `OSError`, and `FileNotFoundError`/`PermissionError` are subclasses
of `OSError`. -/
inductive PyExc
  | typeError
  | valueError
  | attributeError
  | indexError
  | keyError
  | fileNotFoundError
  | permissionError
  | osError
  | unicodeDecodeError
  | requestException
  | timeoutError
  | otherError
  deriving DecidableEq, Repr

/-- Whether an exception is an instance of `OSError` (equivalently of
the alias `IOError`), as used by the `except (...)` clauses of
`safe_file_read` / `safe_file_write`.  `UnicodeDecodeError` is a
subclass of `ValueError`, not of `OSError`. -/
def isOSErrorInstance : PyExc → Bool
  | .fileNotFoundError => true
  | .permissionError => true
  | .osError => true
  | _ => false

/-- Python truthiness of an optional string: `None` and `""` are falsy. -/
def pyTruthy : Option String → Bool
  | none => false
  | some s => s ≠ ""

/-- `str.lower()` (ASCII case folding, which covers every key and agent
name occurring in this code base). -/
def pyLowerS (s : String) : String :=
  String.mk (s.data.map Char.toLower)

/-- `s.data` shorthand used to move between `String` literals and the
`List Char` representation. -/
def strL (s : String) : List Char := s.data

/-! ## `scripts/utils/resilience.py`: `safe_file_read` / `safe_file_write` -/

/-- Embedding of `safe_file_read` (resilience.py lines 217-242).
`readOutcome` is the outcome of `Path(filepath).read_text(...)`.
The code catches `(FileNotFoundError, IOError, OSError)` — exactly the
`OSError` instances — and returns `default`; any other exception
propagates. -/
def safe_file_read (readOutcome : Except PyExc String) (dflt : String) :
    Except PyExc String :=
  match readOutcome with
  | .ok s => .ok s
  | .error e => if isOSErrorInstance e then .ok dflt else .error e

/-- Embedding of `safe_file_write` (resilience.py lines 178-214).
`mkdirOutcome` is the outcome of `Path(filepath).parent.mkdir(...)`
(run only when `create_dirs`), `writeOutcome` the outcome of opening
and writing the file.  The code catches `(IOError, OSError)` — exactly
the `OSError` instances — and returns `False`; other exceptions
propagate. -/
def safe_file_write (create_dirs : Bool)
    (mkdirOutcome writeOutcome : Except PyExc Unit) : Except PyExc Bool :=
  let body : Except PyExc Unit :=
    if create_dirs then
      match mkdirOutcome with
      | .error e => .error e
      | .ok _ => writeOutcome
    else writeOutcome
  match body with
  | .ok _ => .ok true
  | .error e => if isOSErrorInstance e then .ok false else .error e

/-! ## `scripts/utils/resilience.py`: `retry_with_backoff` -/

/-- The delay slept after failed attempt number `attempt` (1-based):
`min(base_delay * exponential_base ** (attempt - 1), max_delay)`
(resilience.py line 91).  Delays are modelled as exact rationals. -/
def backoffDelay (baseDelay maxDelay expBase : ℚ) (attempt : ℕ) : ℚ :=
  min (baseDelay * expBase ^ (attempt - 1)) maxDelay

/-- Outcome of one invocation of the wrapped function: it returns a
value, raises an exception belonging to the decorator's configured
`exceptions` tuple, or raises an exception outside that tuple. -/
inductive CallOutcome (α : Type)
  | ok (v : α)
  | raiseCaught
  | raiseOther
  deriving DecidableEq, Repr

/-- Result of a call of the retry wrapper. `reraised` is the configured
exception re-raised at the final attempt; `propagated` is an exception
outside the configured tuple escaping the `except` clause;
`fellThrough` is the trailing `return None` (reachable only when
`max_attempts` is zero, so the `for` loop body never runs). -/
inductive RetryResult (α : Type)
  | returned (v : α)
  | reraised
  | propagated
  | fellThrough
  deriving DecidableEq, Repr

/-- Observable trace of one call of the retry wrapper: its result, how
many times the wrapped function was invoked, and the sleep durations
in order. -/
structure RetryTrace (α : Type) where
  result : RetryResult α
  calls : ℕ
  sleeps : List ℚ
  deriving DecidableEq, Repr

/-- Embedding of the `for attempt in range(1, max_attempts + 1)` loop
of `retry_with_backoff` (resilience.py lines 79-98).  `func i` is the
outcome of the i-th invocation of the wrapped function; `attempt` is
the current attempt number and `fuel` the number of attempts still
allowed including the current one (so `fuel = 1` means
`attempt == max_attempts`). -/
def retryLoop (func : ℕ → CallOutcome α) (baseDelay maxDelay expBase : ℚ) :
    ℕ → ℕ → RetryTrace α
  | _, 0 => ⟨.fellThrough, 0, []⟩
  | attempt, fuel + 1 =>
    match func attempt with
    | .ok v => ⟨.returned v, 1, []⟩
    | .raiseOther => ⟨.propagated, 1, []⟩
    | .raiseCaught =>
      if fuel = 0 then ⟨.reraised, 1, []⟩
      else
        let d := backoffDelay baseDelay maxDelay expBase attempt
        let rest := retryLoop func baseDelay maxDelay expBase (attempt + 1) fuel
        ⟨rest.result, rest.calls + 1, d :: rest.sleeps⟩

/-- One call of the wrapper produced by
`retry_with_backoff(max_attempts, base_delay, max_delay,
exponential_base, exceptions)`: the loop starts at attempt 1 with
`max_attempts` attempts remaining. -/
def retry_with_backoff (func : ℕ → CallOutcome α)
    (maxAttempts : ℕ) (baseDelay maxDelay expBase : ℚ) : RetryTrace α :=
  retryLoop func baseDelay maxDelay expBase 1 maxAttempts

/-! ## `scripts/utils/resilience.py`: `validate_api_key` -/

/-- `c in "-_"`, the character class `[-_]` of the placeholder regexes. -/
def isDashOrUnderscore (c : Char) : Bool := c = '-' || c = '_'

/-- Does `pat` occur in `s` starting exactly at index `i`? -/
def subAt (s pat : List Char) (i : ℕ) : Bool :=
  pat.isPrefixOf (s.drop i)

/-- Plain substring search, the semantics of `re.search` for a pattern
that is a literal string. -/
def containsSub (s pat : List Char) : Bool :=
  (List.range (s.length + 1)).any (fun i => subAt s pat i)

/-- `re.search(r'your[-_].*[-_]key', s)` succeeds: some occurrence of
`your` followed by `-` or `_` at index `i`, and some `-`/`_` followed
by `key` at an index `j ≥ i + 5`, with no newline in the gap matched
by `.*`. -/
def yourKeySearch (s : List Char) : Bool :=
  (List.range s.length).any (fun i =>
    subAt s (strL "your") i &&
    isDashOrUnderscore (s.getD (i + 4) ' ') &&
    decide (i + 5 ≤ s.length) &&
    (List.range s.length).any (fun j =>
      decide (i + 5 ≤ j) && decide (j + 4 ≤ s.length) &&
      isDashOrUnderscore (s.getD j ' ') &&
      subAt s (strL "key") (j + 1) &&
      decide (∀ t, t < j → i + 5 ≤ t → s.getD t ' ' ≠ '\n')))

/-- `is_placeholder` of `validate_api_key` (resilience.py lines
129-138): any of the six placeholder regexes found in `key.lower()`.
`xxx+` and `000+` succeed exactly when `xxx` resp. `000` occur;
`replace[-_]me` and `example[-_]key` expand to two literal choices. -/
def isPlaceholderKey (key : String) : Bool :=
  let s := strL (pyLowerS key)
  yourKeySearch s ||
  containsSub s (strL "replace-me") || containsSub s (strL "replace_me") ||
  containsSub s (strL "example-key") || containsSub s (strL "example_key") ||
  containsSub s (strL "placeholder") ||
  containsSub s (strL "xxx") || containsSub s (strL "000")

/-- The character class of `^[a-zA-Z0-9_\-\.]+$`. -/
def isApiKeyChar (c : Char) : Bool :=
  c.isAlpha || c.isDigit || c = '_' || c = '-' || c = '.'

/-- Verdict of `validate_api_key`: the returned boolean, or a raised
`ValueError` with its message. -/
inductive KeyVerdict
  | ok (b : Bool)
  | valueError (msg : String)
  deriving DecidableEq, Repr

/-- Embedding of `validate_api_key(key, key_name, min_length,
allow_placeholder)` (resilience.py lines 104-153).  `key` is optional
(`Optional[str]`); `if not key` treats `None` and `""` alike. -/
def validate_api_key (key : Option String) (keyName : String)
    (minLength : ℕ) (allowPlaceholder : Bool) : KeyVerdict :=
  match key with
  | none => .valueError (keyName ++ " is not set")
  | some k =>
    if k = "" then .valueError (keyName ++ " is not set")
    else if isPlaceholderKey k then
      if !allowPlaceholder then
        .valueError (keyName ++ " appears to be a placeholder value")
      else .ok false
    else if k.length < minLength then
      .valueError (keyName ++ " is too short")
    else if !(k.data.all isApiKeyChar) then
      .valueError (keyName ++ " contains invalid characters")
    else .ok true

/-! ## `scripts/agent_connectors.py`: chain construction

The `UniversalAgentConnector._add_*` methods each append zero or one
connector to `self.connectors`; the embedding renders each method as
the list of connectors it appends (possibly raising), and
`_initialize_connectors` as their concatenation in program order. -/

/-- The process environment, `os.getenv`: `none` for an unset variable. -/
def Env : Type := String → Option String

/-- `os.environ.get(name, "")` as called on `_add_http_connector` line
302: passing `None` as the variable name raises `TypeError` (`str
expected, not NoneType`); otherwise an unset variable yields the
default `""`. -/
def getenvD (env : Env) : Option String → Except PyExc String
  | none => .error .typeError
  | some nm => .ok ((env nm).getD "")

/-- The `http` sub-map of an agent configuration, with the keys
`_add_http_connector` reads. `none` models an absent key
(`dict.get` returning `None`). -/
structure HttpCfg where
  base_url : Option String
  api_key : Option String
  api_key_env : Option String
  timeout : Option Int
  deriving DecidableEq, Repr

/-- The `mcp` sub-map, with the keys `_add_mcp_connector` reads. -/
structure McpCfg where
  server_url : Option String
  protocol_version : Option String
  deriving DecidableEq, Repr

/-- The `docker` sub-map, with the keys `_add_docker_connector` reads. -/
structure DockerCfg where
  container_name : Option String
  ports : Option (List String)
  deriving DecidableEq, Repr

/-- The `local` sub-map, with the keys `_add_local_connector` reads. -/
structure LocalCfg where
  binary_path : Option String
  serve_address : Option String
  deriving DecidableEq, Repr

/-- A constructed connector, recorded by its class and the arguments
the `_add_*` method passed to its constructor. -/
inductive ConnectorSpec
  | http (base_url : String) (api_key : String) (timeout : Int)
  | sdk (sdk_type : String) (cfg : List (String × String))
  | mcp (server_url : String) (protocol_version : String)
  | docker (container_name : String) (port : Int)
  | localBin (binary_path : String) (serve_address : String)
  deriving DecidableEq, Repr

/-- The transport family of a connector. -/
inductive TransportKind
  | http | sdk | mcp | docker | localBin
  deriving DecidableEq, Repr

/-- Which transport family a constructed connector belongs to. -/
def specKind : ConnectorSpec → TransportKind
  | .http .. => .http
  | .sdk .. => .sdk
  | .mcp .. => .mcp
  | .docker .. => .docker
  | .localBin .. => .localBin

/-- `_add_http_connector` (agent_connectors.py lines 298-311): the
connectors it appends.  `api_key = http_config.get("api_key") or
os.getenv(api_key_env, "")` — the inline key wins when truthy,
otherwise the environment variable named by `api_key_env` is read
(raising `TypeError` when that field is absent); the connector is
added only when both `base_url` and the resolved key are truthy. -/
def httpConnectorsToAdd (cfg : HttpCfg) (env : Env) :
    Except PyExc (List ConnectorSpec) :=
  match (if pyTruthy cfg.api_key then Except.ok (cfg.api_key.getD "")
    else getenvD env cfg.api_key_env) with
  | .error e => .error e
  | .ok apiKey =>
    if pyTruthy cfg.base_url ∧ apiKey ≠ "" then
      .ok [.http (cfg.base_url.getD "") apiKey (cfg.timeout.getD 60)]
    else .ok []

/-- `_add_sdk_connector` (lines 313-319): always appends one SDK
connector; agent name `openrouter` is mapped to the `openai` client
family. -/
def sdkConnectorsToAdd (agentName : String) (sdkCfg : List (String × String)) :
    List ConnectorSpec :=
  let sdkType := pyLowerS agentName
  let sdkType := if sdkType = "openrouter" then "openai" else sdkType
  [.sdk sdkType sdkCfg]

/-- `_add_mcp_connector` (lines 321-330): appends one MCP connector
when `server_url` is truthy. -/
def mcpConnectorsToAdd (cfg : McpCfg) : List ConnectorSpec :=
  match cfg.server_url with
  | some u => if u ≠ "" then [.mcp u (cfg.protocol_version.getD "2024-11-05")] else []
  | none => []

/-- `int(s)` on the port string cut from a `host:container` mapping:
optional sign followed by at least one digit (surrounding whitespace,
irrelevant here, omitted). -/
def pyParseInt (s : String) : Option Int :=
  match s.data with
  | [] => none
  | '-' :: ds => if ds ≠ [] ∧ ds.all Char.isDigit then
      some (-(ds.foldl (fun n c => 10 * n + (c.toNat - 48)) 0 : Int)) else none
  | '+' :: ds => if ds ≠ [] ∧ ds.all Char.isDigit then
      some (ds.foldl (fun n c => 10 * n + (c.toNat - 48)) 0 : Int) else none
  | ds => if ds.all Char.isDigit then
      some (ds.foldl (fun n c => 10 * n + (c.toNat - 48)) 0 : Int) else none

/-- `_add_docker_connector` (lines 332-339): when `container_name` is
truthy, take `docker_config.get("ports", ["11434:11434"])[0]`
(raising `IndexError` on an empty list), cut at the first `:`
(`split(":")[0]`), convert with `int` (raising `ValueError` on a
non-numeric port), and append one Docker connector. -/
def dockerConnectorsToAdd (cfg : DockerCfg) :
    Except PyExc (List ConnectorSpec) :=
  match cfg.container_name with
  | none => .ok []
  | some cn =>
    if cn = "" then .ok []
    else
      match cfg.ports.getD ["11434:11434"] with
      | [] => .error .indexError
      | p :: _ =>
        match pyParseInt ((p.splitOn ":").headD p) with
        | some port => .ok [.docker cn port]
        | none => .error .valueError

/-- `_add_local_connector` (lines 341-350): appends one local-binary
connector when `binary_path` is truthy. -/
def localConnectorsToAdd (cfg : LocalCfg) : List ConnectorSpec :=
  match cfg.binary_path with
  | some bp =>
    if bp ≠ "" then [.localBin bp (cfg.serve_address.getD "127.0.0.1:11434")] else []
  | none => []

/-- The per-agent `AgentConfig` record produced by the configuration
loader (config_loader.py lines 15-24). -/
structure AgentConfigM where
  mode : String
  enabled : Bool
  http : HttpCfg
  sdk : List (String × String)
  mcp : McpCfg
  docker : DockerCfg
  localCfg : LocalCfg
  deriving DecidableEq, Repr

/-- The attribute `getattr(config, name, None)` can produce on a
`Config` dataclass: one of the two per-agent records, the `agent_mode`
string, or one of the dict-typed sections (`research`, `http`, ...). -/
inductive ConfigAttr
  | agentCfg (a : AgentConfigM)
  | strAttr (s : String)
  | dictAttr (entries : List (String × String))
  deriving DecidableEq, Repr

/-- Python truthiness of a `Config` attribute: dataclass instances are
always truthy, strings and dicts are truthy when non-empty. -/
def attrTruthy : ConfigAttr → Bool
  | .agentCfg _ => true
  | .strAttr s => s ≠ ""
  | .dictAttr d => !d.isEmpty

/-- The `Config` dataclass (config_loader.py lines 27-52): the two
per-agent records, the `agent_mode` string, and the remaining
dict-typed sections by field name. -/
structure ConfigM where
  agent_mode : String
  ollama : AgentConfigM
  openrouter : AgentConfigM
  otherSections : List (String × List (String × String))
  deriving DecidableEq, Repr

/-- `getattr(config, name, None)` for a `Config` instance. -/
def configGetattr (c : ConfigM) (name : String) : Option ConfigAttr :=
  if name = "ollama" then some (.agentCfg c.ollama)
  else if name = "openrouter" then some (.agentCfg c.openrouter)
  else if name = "agent_mode" then some (.strAttr c.agent_mode)
  else match c.otherSections.lookup name with
    | some d => some (.dictAttr d)
    | none => none

/-- `_initialize_from_env` (agent_connectors.py lines 282-296): the
hard-coded environment-variable-only fallback, used when no
configuration could be loaded. -/
def initFromEnv (agentName : String) (env : Env) : List ConnectorSpec :=
  if pyLowerS agentName = "ollama" then
    match env "OLLAMA_API_KEY" with
    | some k => if k ≠ "" then [.http "https://api.ollama.ai/v1" k 60] else []
    | none => []
  else if pyLowerS agentName = "openrouter" then
    match env "OPENROUTER_API_KEY" with
    | some k => if k ≠ "" then [.http "https://openrouter.ai/api/v1" k 60] else []
    | none => []
  else []

/-- The mode-dispatch part of `_initialize_connectors` (lines 264-280):
each transport family's add step runs when the mode names it or is
`hybrid`, in the fixed program order HTTP, SDK, MCP, Docker, Local;
an exception in one step aborts the later steps. -/
def buildChain (agentName : String) (a : AgentConfigM) (env : Env) :
    Except PyExc (List ConnectorSpec) :=
  match (if a.mode = "http" ∨ a.mode = "hybrid" then
    httpConnectorsToAdd a.http env else .ok []) with
  | .error e => .error e
  | .ok h =>
    let s := if a.mode = "sdk" ∨ a.mode = "hybrid" then
      sdkConnectorsToAdd agentName a.sdk else []
    let mc := if a.mode = "mcp" ∨ a.mode = "hybrid" then
      mcpConnectorsToAdd a.mcp else []
    match (if a.mode = "docker" ∨ a.mode = "hybrid" then
      dockerConnectorsToAdd a.docker else .ok []) with
    | .error e => .error e
    | .ok d =>
      let lo := if a.mode = "local" ∨ a.mode = "hybrid" then
        localConnectorsToAdd a.localCfg else []
      .ok (h ++ s ++ mc ++ d ++ lo)

/-- `_initialize_connectors` (lines 252-280).  With no loaded
configuration (`get_config()` falsy) it falls back to
`_initialize_from_env`.  With a configuration, it looks the lowercased
agent name up with `getattr`; a missing or falsy attribute, or a
per-agent record with `enabled == False`, leaves the chain empty (and
does not consult the environment); a truthy non-record attribute makes
`agent_config.enabled` raise `AttributeError`. -/
def initConnectors (config : Option ConfigM) (agentName : String) (env : Env) :
    Except PyExc (List ConnectorSpec) :=
  match config with
  | none => .ok (initFromEnv agentName env)
  | some c =>
    match configGetattr c (pyLowerS agentName) with
    | none => .ok []
    | some att =>
      if !attrTruthy att then .ok []
      else match att with
        | .agentCfg a => if !a.enabled then .ok [] else buildChain agentName a env
        | _ => .error .attributeError

/-! ## `scripts/agent_connectors.py`: query-time behaviour

For the query protocol, a connector is modelled together with the
outcomes of the external calls it would make during one `query()` call
of the universal connector (each connector is probed at most once and
queried at most once per call, so one outcome per call site suffices). -/

/-- Outcomes of the HTTP calls an `HTTPAgentConnector` makes:
`getModels` is `GET {base_url}/models` returning a status code,
`post` is `POST {base_url}/chat/completions` returning the status code
and the value found at `choices[0].message.content` (`none` when the
path is absent from the JSON, or the JSON value is null). -/
structure HttpBehavior where
  getModels : Except PyExc Nat
  post : Except PyExc (Nat × Option String)
  deriving DecidableEq, Repr

/-- `HTTPAgentConnector.is_available` (lines 77-86): true when the GET
completes and its status is `< 500`; the bare `except:` maps any
exception to `False`. -/
def httpIsAvailable (b : HttpBehavior) : Bool :=
  match b.getModels with
  | .ok status => status < 500
  | .error _ => false

/-- `HTTPAgentConnector.query` (lines 49-75): `raise_for_status`
raises on 4xx/5xx statuses; any exception is caught and the method
returns `""`; otherwise the extracted content (with `""` for a
missing or null path, matching the chained `.get(..., "")` defaults,
a null content being returned as the falsy `None`). -/
def httpQuery (b : HttpBehavior) : String :=
  match b.post with
  | .error _ => ""
  | .ok (status, content) =>
    if 400 ≤ status ∧ status < 600 then "" else content.getD ""

/-- A connector of the chain and the outcomes of its external calls:
`sdk` carries whether `_initialize_client` managed to build a client
and the outcome of the client's chat call; `docker` the `docker ps`
stdout (or exception) and the delegated HTTP behaviour; `localConn`
the `--version` subprocess return code (or exception) and the
delegated HTTP behaviour. -/
inductive ConnectorB
  | http (b : HttpBehavior)
  | sdk (sdkType : String) (clientBuilt : Bool)
      (chat : Except PyExc (Option String))
  | mcp
  | docker (ps : Except PyExc String) (containerName : String)
      (inner : HttpBehavior)
  | localConn (run : Except PyExc Int) (inner : HttpBehavior)
  deriving DecidableEq, Repr

/-- `is_available` of each connector class: HTTP as above; SDK is
`self.client is not None` (lines 145-147); MCP is the hard-coded
`False` stub (lines 175-178); Docker runs `docker ps` and checks the
container name occurs in stdout, any exception giving `False` (lines
198-210); Local checks the version subprocess exited 0, any exception
giving `False` (lines 230-241). -/
def connIsAvailable : ConnectorB → Bool
  | .http b => httpIsAvailable b
  | .sdk _ clientBuilt _ => clientBuilt
  | .mcp => false
  | .docker ps cn _ =>
    match ps with
    | .ok out => containsSub (strL out) (strL cn)
    | .error _ => false
  | .localConn run _ =>
    match run with
    | .ok rc => rc = 0
    | .error _ => false

/-- `query` of each connector class: HTTP as above; SDK returns `""`
without a client, otherwise the chat content for the `ollama`/`openai`
client families with every exception caught to `""` (a null `openai`
content and an unrecognized family both return the falsy `None`,
modelled as `""`); MCP is the placeholder returning `""`; Docker and
Local delegate to their inner HTTP connector (lines 194-196, 226-228). -/
def connQuery : ConnectorB → String
  | .http b => httpQuery b
  | .sdk sdkType clientBuilt chat =>
    if !clientBuilt then ""
    else if sdkType = "ollama" ∨ sdkType = "openai" then
      match chat with
      | .ok c => c.getD ""
      | .error _ => ""
    else ""
  | .mcp => ""
  | .docker _ _ inner => httpQuery inner
  | .localConn _ inner => httpQuery inner

/-- `UniversalAgentConnector.query` (lines 352-362): try connectors in
chain order; probe each, query the available ones, return the first
truthy result; return `""` when the chain is exhausted. -/
def universalQuery : List ConnectorB → String
  | [] => ""
  | c :: rest =>
    if connIsAvailable c then
      let r := connQuery c
      if r ≠ "" then r else universalQuery rest
    else universalQuery rest

/-- `universalQuery` instrumented with the number of connectors whose
`is_available` probe was reached during the call. -/
def universalQueryProbed : List ConnectorB → String × ℕ
  | [] => ("", 0)
  | c :: rest =>
    if connIsAvailable c then
      let r := connQuery c
      if r ≠ "" then (r, 1)
      else
        let p := universalQueryProbed rest
        (p.1, p.2 + 1)
    else
      let p := universalQueryProbed rest
      (p.1, p.2 + 1)

/-- A connector succeeds within one `query()` call when its probe
answers true and its own query returns a truthy result. -/
def connSucceeds (c : ConnectorB) : Bool :=
  connIsAvailable c && connQuery c ≠ ""

/-! ## `scripts/config_loader.py`: `ConfigLoader.get`

The dot-notation accessor consumes values only through
`isinstance(value, dict)`, `hasattr(value, part)` and
`getattr(value, part)`, so a value is modelled as either a dict with
its entries, or any other object together with its attribute map.
The attribute map of a non-dict value lists the finite fragment of
its Python attributes that a walk can reach: dataclass instances
carry their fields, and scalar leaves carry their built-in method
attributes (for example `upper` on a `str` maps to a bound-method
object, itself an attribute-bearing value); a name absent from the
map is one at which Python's `hasattr` is false. -/

/-- A Python value reachable while walking `self._config.__dict__`:
a dict, or a non-dict object (dataclass instance, string, int,
boolean, `None`, bound method, ...) with its data payload and
attribute map. -/
inductive PyVal
  | vdict (entries : List (List Char × PyVal))
  | vobj (attrs : List (List Char × PyVal))
  | vstr (s : List Char) (attrs : List (List Char × PyVal))
  | vint (n : Int) (attrs : List (List Char × PyVal))
  | vbool (b : Bool) (attrs : List (List Char × PyVal))
  | vnone (attrs : List (List Char × PyVal))

/-- The attribute map of a non-dict value.  (`vdict` never reaches the
`hasattr` branch: `isinstance(value, dict)` is tested first.) -/
def attrsOf : PyVal → List (List Char × PyVal)
  | .vdict _ => []
  | .vobj attrs => attrs
  | .vstr _ attrs => attrs
  | .vint _ attrs => attrs
  | .vbool _ attrs => attrs
  | .vnone attrs => attrs

/-- `d.get(part, default)` on a dict value. -/
def dictGetD (entries : List (List Char × PyVal)) (k : List Char)
    (dflt : PyVal) : PyVal :=
  (entries.lookup k).getD dflt

/-- `key.split(sep)` for a one-character separator: every occurrence
splits, empty segments are kept, the empty string yields `[""]`. -/
def splitOnChar (sep : Char) : List Char → List (List Char)
  | [] => [[]]
  | c :: t =>
    if c = sep then [] :: splitOnChar sep t
    else
      match splitOnChar sep t with
      | h :: r => (c :: h) :: r
      | [] => [[c]]

/-- The `for part in parts` walk of `ConfigLoader.get` (config_loader.py
lines 173-179): a dict steps to `value.get(part, default)` and keeps
walking; any other value steps into the attribute when
`hasattr(value, part)` holds (`getattr`), and returns `default` at
once otherwise. -/
def configGetParts : List (List Char) → PyVal → PyVal → PyVal
  | [], value, _ => value
  | p :: ps, .vdict entries, dflt =>
    configGetParts ps (dictGetD entries p dflt) dflt
  | p :: ps, value, dflt =>
    match (attrsOf value).lookup p with
    | some v => configGetParts ps v dflt
    | none => dflt

/-- `ConfigLoader.get(key, default)` (lines 165-181), with `root` the
loaded `self._config.__dict__`. -/
def configGet (root : PyVal) (key : List Char) (dflt : PyVal) : PyVal :=
  configGetParts (splitOnChar '.' key) root dflt

/-- Modelled from the spec's words, for comparison with `configGet`:
the value stored at a dot path — following dict entries and object
attributes — and `none` the first time a segment is missing, i.e. the
value at that point is not a dict with the segment as a key nor an
object with it as an attribute.  (`Configuration.get` is then claimed
to return the stored value, or `default` when this lookup is
`none`.) -/
def specPathLookup : PyVal → List (List Char) → Option PyVal
  | v, [] => some v
  | .vdict entries, p :: ps =>
    match entries.lookup p with
    | some v => specPathLookup v ps
    | none => none
  | value, p :: ps =>
    match (attrsOf value).lookup p with
    | some v => specPathLookup v ps
    | none => none

/-- Whether a value exposes `p` as a dict key or as an object
attribute — the two ways the walk of `ConfigLoader.get` can step into
it. -/
def hasChildNamed : PyVal → List Char → Bool
  | .vdict entries, p => (entries.lookup p).isSome
  | value, p => ((attrsOf value).lookup p).isSome

/-! ## `scripts/config_manager.py`: `.env` save / load round trip -/

/-- Python `str.strip()` whitespace. -/
def isPyWS (c : Char) : Bool :=
  c = ' ' || c = '\t' || c = '\n' || c = '\r' || c = '\x0b' || c = '\x0c'

/-- `line.strip()`. -/
def pyStrip (l : List Char) : List Char :=
  ((l.dropWhile isPyWS).reverse.dropWhile isPyWS).reverse

/-- `line.startswith('#')`. -/
def startsHash : List Char → Bool
  | [] => false
  | c :: _ => c = '#'

/-- `line.split('=', 1)` for a line containing `=` (the caller's guard):
the parts before and after the first `=`. -/
def splitOnceEq : List Char → List Char × List Char
  | [] => ([], [])
  | c :: t =>
    if c = '=' then ([], t)
    else
      let p := splitOnceEq t
      (c :: p.1, p.2)

/-- Assignment `config[key] = value` on the dict, modelled as a lookup
function. -/
def dictUpd (d : List Char → Option (List Char)) (k v : List Char) :
    List Char → Option (List Char) :=
  fun q => if q = k then some v else d q

/-- One iteration of the `for line in f` loop of
`ConfigManager.load_config` (config_manager.py lines 117-121): strip
the line; skip it unless it is non-empty, does not start with `#`, and
contains `=`; otherwise split at the first `=` and store the stripped
key and value. -/
def loadStep (d : List Char → Option (List Char)) (line : List Char) :
    List Char → Option (List Char) :=
  let l := pyStrip line
  if l ≠ [] ∧ startsHash l = false ∧ l.any (fun c => c = '=') then
    let kv := splitOnceEq l
    dictUpd d (pyStrip kv.1) (pyStrip kv.2)
  else d

/-- `ConfigManager.load_config` (lines 110-125) over the lines of the
file, starting from the empty dict. -/
def load_config (lines : List (List Char)) : List Char → Option (List Char) :=
  lines.foldl loadStep (fun _ => none)

/-- Code-point comparison of strings, the order `sorted` uses. -/
def lexLe : List Char → List Char → Bool
  | [], _ => true
  | _ :: _, [] => false
  | a :: xs, b :: ys => if a = b then lexLe xs ys else decide (a.toNat < b.toNat)

/-- `sorted(config.items())` compares `(key, value)` pairs
lexicographically. -/
def pairLe (p q : List Char × List Char) : Bool :=
  if p.1 = q.1 then lexLe p.2 q.2 else lexLe p.1 q.1

/-- Insertion into a sorted list. -/
def insertSorted (le : α → α → Bool) (x : α) : List α → List α
  | [] => [x]
  | y :: t => if le x y then x :: y :: t else y :: insertSorted le x t

/-- `sorted(...)` as an insertion sort (only the fact that the result
is a permutation matters below). -/
def sortPairs (l : List (List Char × List Char)) :
    List (List Char × List Char) :=
  l.foldr (insertSorted pairLe) []

/-- The four comment lines and one blank line
`ConfigManager.save_config` writes before the settings
(config_manager.py lines 138-141). -/
def headerLines (ts : List Char) : List (List Char) :=
  [strL "# " ++ List.replicate 76 '=',
   strL "# BrowserOS Knowledge Base - Configuration",
   strL "# Modified: " ++ ts,
   strL "# " ++ List.replicate 76 '=',
   []]

/-- `ConfigManager.save_config` (lines 127-149) as the list of lines
of the file it writes: the header, then `key=value` for each setting
in sorted order.  `ts` is the formatted timestamp. -/
def save_config (cfg : List (List Char × List Char)) (ts : List Char) :
    List (List Char) :=
  headerLines ts ++ (sortPairs cfg).map (fun p => p.1 ++ '=' :: p.2)

/-- A key the round-trip claim ranges over, as amended: non-empty, not
starting with `#`, free of `=` and of line breaks, and invariant under
`strip()` (no leading or trailing whitespace). -/
def GoodKey (k : List Char) : Prop :=
  k ≠ [] ∧ startsHash k = false ∧ (∀ c ∈ k, c ≠ '=' ∧ c ≠ '\n' ∧ c ≠ '\r') ∧
  k.dropWhile isPyWS = k ∧ k.reverse.dropWhile isPyWS = k.reverse

/-- A value the round-trip claim ranges over, as amended: free of line
breaks and invariant under `strip()`. -/
def GoodVal (v : List Char) : Prop :=
  (∀ c ∈ v, c ≠ '\n' ∧ c ≠ '\r') ∧
  v.dropWhile isPyWS = v ∧ v.reverse.dropWhile isPyWS = v.reverse

instance : DecidablePred GoodKey := fun k => by
  unfold GoodKey; infer_instance

instance : DecidablePred GoodVal := fun v => by
  unfold GoodVal; infer_instance

/-! ## Theorems: C10, C9, C4, C7 -/

/-- C10: `safe_file_read` returns the caller-supplied default exactly
when reading raises `FileNotFoundError`, `IOError`, or `OSError` (the
`OSError` instances), and `safe_file_write` returns `False` exactly
when directory creation or writing raises `IOError` or `OSError`;
exceptions outside these sets — for example `UnicodeDecodeError` —
propagate to the caller. -/
theorem safe_file_exception_sets :
    (∀ (e : PyExc) (d : String), isOSErrorInstance e = true →
      safe_file_read (.error e) d = .ok d) ∧
    (∀ (e : PyExc) (d : String), isOSErrorInstance e = false →
      safe_file_read (.error e) d = .error e) ∧
    (∀ (s d : String), safe_file_read (.ok s) d = .ok s) ∧
    (isOSErrorInstance .unicodeDecodeError = false) ∧
    (∀ (w : Except PyExc Unit) (e : PyExc), isOSErrorInstance e = true →
      safe_file_write true (.error e) w = .ok false) ∧
    (∀ (cd : Bool) (e : PyExc), isOSErrorInstance e = true →
      safe_file_write cd (.ok ()) (.error e) = .ok false) ∧
    (∀ (w : Except PyExc Unit) (e : PyExc), isOSErrorInstance e = false →
      safe_file_write true (.error e) w = .error e) ∧
    (∀ (cd : Bool) (e : PyExc), isOSErrorInstance e = false →
      safe_file_write cd (.ok ()) (.error e) = .error e) ∧
    (∀ cd : Bool, safe_file_write cd (.ok ()) (.ok ()) = .ok true) ∧
    (∀ (cd : Bool) (m w : Except PyExc Unit),
      safe_file_write cd m w = .ok false →
      ∃ e, isOSErrorInstance e = true ∧ (m = .error e ∨ w = .error e)) := by
  refine ⟨?_, ?_, ?_, rfl, ?_, ?_, ?_, ?_, ?_, ?_⟩
  · intro e d he; simp [safe_file_read, he]
  · intro e d he; simp [safe_file_read, he]
  · intro s d; rfl
  · intro w e he; simp [safe_file_write, he]
  · intro cd e he; cases cd <;> simp [safe_file_write, he]
  · intro w e he; simp [safe_file_write, he]
  · intro cd e he; cases cd <;> simp [safe_file_write, he]
  · intro cd; cases cd <;> rfl
  · intro cd m w h
    cases cd with
    | false =>
      cases w with
      | ok u => simp [safe_file_write] at h
      | error e =>
        refine ⟨e, ?_, Or.inr rfl⟩
        by_cases he : isOSErrorInstance e <;> simp [safe_file_write, he] at h ⊢
    | true =>
      cases m with
      | ok u =>
        cases w with
        | ok u2 => simp [safe_file_write] at h
        | error e =>
          refine ⟨e, ?_, Or.inr rfl⟩
          by_cases he : isOSErrorInstance e <;> simp [safe_file_write, he] at h ⊢
      | error e =>
        refine ⟨e, ?_, Or.inl rfl⟩
        by_cases he : isOSErrorInstance e <;> simp [safe_file_write, he] at h ⊢

/-- Witness for C10 at concrete inputs. -/
theorem safe_file_exception_sets_witness :
    safe_file_read (.error .fileNotFoundError) "d" = .ok "d" ∧
    safe_file_read (.error .unicodeDecodeError) "d" = .error .unicodeDecodeError ∧
    safe_file_write true (.error .osError) (.ok ()) = .ok false ∧
    safe_file_write false (.ok ()) (.error .typeError) = .error .typeError :=
  ⟨safe_file_exception_sets.1 .fileNotFoundError "d" rfl,
   safe_file_exception_sets.2.1 .unicodeDecodeError "d" rfl,
   safe_file_exception_sets.2.2.2.2.1 (.ok ()) .osError rfl,
   safe_file_exception_sets.2.2.2.2.2.2.2.1 false .typeError rfl⟩

/-- C9: `HTTPAgentConnector.is_available()` is true exactly when the
GET request to `{base_url}/models` completes without raising and its
status code is strictly below 500; client errors such as 404 or 401
count as available, and any raised exception yields false. -/
theorem http_is_available_iff :
    ∀ (g : Except PyExc Nat) (p : Except PyExc (Nat × Option String)),
      (httpIsAvailable ⟨g, p⟩ = true ↔ ∃ st, g = .ok st ∧ st < 500) ∧
      httpIsAvailable ⟨.ok 404, p⟩ = true ∧
      httpIsAvailable ⟨.ok 401, p⟩ = true ∧
      (∀ e : PyExc, httpIsAvailable ⟨.error e, p⟩ = false) ∧
      (∀ st : Nat, 500 ≤ st → httpIsAvailable ⟨.ok st, p⟩ = false) := by
  intro g p
  refine ⟨?_, by norm_num [httpIsAvailable], by norm_num [httpIsAvailable],
    fun e => rfl, ?_⟩
  · cases g with
    | ok st => simp [httpIsAvailable]
    | error e => simp [httpIsAvailable]
  · intro st hst; simp [httpIsAvailable]; omega

/-- Witness for C9 at concrete statuses. -/
theorem http_is_available_iff_witness :
    httpIsAvailable ⟨.ok 404, .ok (200, none)⟩ = true ∧
    httpIsAvailable ⟨.ok 503, .ok (200, none)⟩ = false :=
  ⟨(http_is_available_iff (.ok 404) (.ok (200, none))).2.1,
   (http_is_available_iff (.ok 503) (.ok (200, none))).2.2.2.2 503
     (by norm_num)⟩

/-- C4: availability probes map any failure to `false` rather than
raising, connector-level queries map any internal exception to `""`,
and when every connector of the chain is unavailable, raises
internally, or returns an empty result, `UniversalAgentConnector.query`
returns exactly `""`. -/
theorem universal_query_graceful :
    (∀ (b : HttpBehavior) (e : PyExc), b.getModels = .error e →
      httpIsAvailable b = false) ∧
    (∀ (b : HttpBehavior) (e : PyExc), b.post = .error e →
      httpQuery b = "") ∧
    (∀ (ps : Except PyExc String) (cn : String) (inner : HttpBehavior)
      (e : PyExc), ps = .error e →
      connIsAvailable (.docker ps cn inner) = false) ∧
    (∀ (run : Except PyExc Int) (inner : HttpBehavior) (e : PyExc),
      run = .error e → connIsAvailable (.localConn run inner) = false) ∧
    connIsAvailable .mcp = false ∧
    (∀ cs : List ConnectorB,
      (∀ c ∈ cs, connIsAvailable c = false ∨ connQuery c = "") →
      universalQuery cs = "") := by
  refine ⟨?_, ?_, ?_, ?_, rfl, ?_⟩
  · intro b e h; simp [httpIsAvailable, h]
  · intro b e h; simp [httpQuery, h]
  · intro ps cn inner e h; simp [connIsAvailable, h]
  · intro run inner e h; simp [connIsAvailable, h]
  · intro cs h
    induction cs with
    | nil => rfl
    | cons c rest ih =>
      have hc := h c (by simp)
      have hrest := ih (fun c' hc' => h c' (List.mem_cons_of_mem _ hc'))
      rcases hc with hna | hq
      · simp [universalQuery, hna, hrest]
      · by_cases hav : connIsAvailable c <;> simp [universalQuery, hav, hq, hrest]

/-- Witness for C4 at a concrete chain whose connectors all fail. -/
theorem universal_query_graceful_witness :
    universalQuery
      [.mcp,
       .http ⟨.error .requestException, .error .timeoutError⟩,
       .sdk "ollama" false (.ok (some "ignored")),
       .docker (.error .otherError) "ct" ⟨.ok 200, .ok (200, some "x")⟩,
       .localConn (.ok 1) ⟨.ok 200, .ok (200, some "x")⟩,
       .http ⟨.ok 200, .ok (404, some "x")⟩] = "" :=
  universal_query_graceful.2.2.2.2.2 _ (by decide)

/-- C7: `validate_api_key` is a pure function of its arguments; every
key shorter than `min_length` is rejected (never verdict `True`), a
missing key is rejected, and the literal `"your-api-key-here"` is
rejected for every `min_length` and both values of
`allow_placeholder`. -/
theorem validate_api_key_pure_and_rejects :
    (∀ (k : Option String) (kn : String) (n : ℕ) (a : Bool),
      validate_api_key k kn n a = validate_api_key k kn n a) ∧
    (∀ (kn : String) (n : ℕ) (a : Bool),
      validate_api_key none kn n a ≠ .ok true) ∧
    (∀ (s : String) (kn : String) (n : ℕ) (a : Bool), s.length < n →
      validate_api_key (some s) kn n a ≠ .ok true) ∧
    (∀ (kn : String) (n : ℕ) (a : Bool),
      validate_api_key (some "your-api-key-here") kn n a ≠ .ok true) := by
  refine ⟨fun k kn n a => rfl, fun kn n a => by simp [validate_api_key], ?_, ?_⟩
  · intro s kn n a hlen
    unfold validate_api_key
    by_cases h0 : s = ""
    · simp [h0]
    · by_cases hp : isPlaceholderKey s = true
      · cases a <;> simp [h0, hp]
      · simp [h0, hp, hlen]
  · intro kn n a
    have hp : isPlaceholderKey "your-api-key-here" = true := by decide
    cases a <;> simp [validate_api_key, hp]

/-- Witness for C7 at concrete inputs. -/
theorem validate_api_key_pure_and_rejects_witness :
    validate_api_key (some "ab") "K" 20 false ≠ .ok true ∧
    validate_api_key (some "your-api-key-here") "K" 3 true ≠ .ok true :=
  ⟨validate_api_key_pure_and_rejects.2.2.1 "ab" "K" 20 false (by decide),
   validate_api_key_pure_and_rejects.2.2.2 "K" 3 true⟩

/-! ## Theorems: C6 -/

/-- Sums over initial segments of a nonnegative sequence are monotone
in the segment length. -/
theorem sum_range_map_mono (f : ℕ → ℚ) (hf : ∀ i, 0 ≤ f i) {m k : ℕ}
    (hmk : m ≤ k) :
    ((List.range m).map f).sum ≤ ((List.range k).map f).sum := by
  obtain ⟨j, rfl⟩ := Nat.exists_eq_add_of_le hmk
  rw [List.range_add, List.map_append, List.sum_append, List.map_map]
  have h0 : 0 ≤ ((List.range j).map (f ∘ (m + ·))).sum := by
    apply List.sum_nonneg
    intro x hx
    simp only [List.mem_map] at hx
    obtain ⟨i, _, rfl⟩ := hx
    exact hf _
  linarith

/-- Behaviour of the retry loop from any attempt on: it invokes the
function at most `fuel` more times, its sleeps are exactly the backoff
delays of the consecutive caught failures starting at `attempt` (all
strictly before the final allowed attempt), and when every remaining
attempt fails with a caught exception the final one is re-raised. -/
theorem retryLoop_spec {α : Type} (func : ℕ → CallOutcome α) (bd md eb : ℚ) :
    ∀ (fuel attempt : ℕ),
      (retryLoop func bd md eb attempt fuel).calls ≤ fuel ∧
      (∃ m, m ≤ fuel - 1 ∧
        (retryLoop func bd md eb attempt fuel).sleeps =
          (List.range m).map (fun i => backoffDelay bd md eb (attempt + i)) ∧
        (∀ i, i < m → func (attempt + i) = .raiseCaught)) ∧
      ((∀ i, attempt ≤ i → i < attempt + fuel → func i = .raiseCaught) →
        1 ≤ fuel →
        (retryLoop func bd md eb attempt fuel).result = .reraised) := by
  intro fuel
  induction fuel with
  | zero =>
    intro attempt
    refine ⟨by simp [retryLoop], ⟨0, by omega, by simp [retryLoop],
      fun i hi => absurd hi (Nat.not_lt_zero i)⟩, ?_⟩
    intro _ h1
    exact absurd h1 (by omega)
  | succ n ih =>
    intro attempt
    unfold retryLoop
    cases hf : func attempt with
    | ok v =>
      refine ⟨by simp, ⟨0, by omega, by simp,
        fun i hi => absurd hi (Nat.not_lt_zero i)⟩, ?_⟩
      intro h _
      have := h attempt (Nat.le_refl _) (by omega)
      rw [hf] at this
      exact absurd this (by simp)
    | raiseOther =>
      refine ⟨by simp, ⟨0, by omega, by simp,
        fun i hi => absurd hi (Nat.not_lt_zero i)⟩, ?_⟩
      intro h _
      have := h attempt (Nat.le_refl _) (by omega)
      rw [hf] at this
      exact absurd this (by simp)
    | raiseCaught =>
      by_cases hn : n = 0
      · subst hn
        refine ⟨by simp, ⟨0, by omega, by simp,
          fun i hi => absurd hi (Nat.not_lt_zero i)⟩, ?_⟩
        intro _ _
        simp
      · obtain ⟨ihc, ⟨m', hm', hsleeps, hfail⟩, ihr⟩ := ih (attempt + 1)
        rw [if_neg hn]
        refine ⟨by simp; omega, ⟨m' + 1, by omega, ?_, ?_⟩, ?_⟩
        · show backoffDelay bd md eb attempt ::
            (retryLoop func bd md eb (attempt + 1) n).sleeps =
            (List.range (m' + 1)).map
              (fun i => backoffDelay bd md eb (attempt + i))
          rw [hsleeps, List.range_succ_eq_map, List.map_cons, List.map_map]
          congr 1
          apply List.map_congr_left
          intro i _
          show backoffDelay bd md eb (attempt + 1 + i) =
            backoffDelay bd md eb (attempt + (i + 1))
          congr 1
          omega
        · intro i hi
          cases i with
          | zero => simpa using hf
          | succ j =>
            have := hfail j (by omega)
            simpa [Nat.add_assoc, Nat.add_comm 1 j] using this
        · intro h _
          show (retryLoop func bd md eb (attempt + 1) n).result = .reraised
          exact ihr (fun i h1 h2 => h i (by omega) (by omega)) (by omega)

/-- C6: a function wrapped by `retry_with_backoff(max_attempts,
base_delay, max_delay, exponential_base, exceptions)` is invoked at
most `max_attempts` times per call; a sleep happens only after an
attempt `i < max_attempts` that raised a configured exception, with
duration exactly `min(base_delay * exponential_base^(i-1), max_delay)`;
the total sleep time is bounded by the sum of those terms for
`i = 1 .. max_attempts - 1`; and when every attempt up to
`max_attempts ≥ 1` raises a configured exception, the final exception
is re-raised.  (Delay parameters are nonnegative, as `time.sleep`
requires.) -/
theorem retry_with_backoff_bounds {α : Type} (func : ℕ → CallOutcome α)
    (maxAttempts : ℕ) (bd md eb : ℚ)
    (hbd : 0 ≤ bd) (hmd : 0 ≤ md) (heb : 0 ≤ eb) :
    (retry_with_backoff func maxAttempts bd md eb).calls ≤ maxAttempts ∧
    (∃ m, m ≤ maxAttempts - 1 ∧
      (retry_with_backoff func maxAttempts bd md eb).sleeps =
        (List.range m).map (fun i => backoffDelay bd md eb (1 + i)) ∧
      (∀ i, i < m → func (1 + i) = .raiseCaught)) ∧
    (retry_with_backoff func maxAttempts bd md eb).sleeps.sum ≤
      ((List.range (maxAttempts - 1)).map
        (fun i => backoffDelay bd md eb (1 + i))).sum ∧
    ((∀ i, 1 ≤ i → i ≤ maxAttempts → func i = .raiseCaught) →
      1 ≤ maxAttempts →
      (retry_with_backoff func maxAttempts bd md eb).result = .reraised) := by
  obtain ⟨hc, ⟨m, hm, hsleeps, hfail⟩, hr⟩ :=
    retryLoop_spec func bd md eb maxAttempts 1
  have hdelay : ∀ i, 0 ≤ backoffDelay bd md eb (1 + i) := by
    intro i
    unfold backoffDelay
    exact le_min (mul_nonneg hbd (pow_nonneg heb _)) hmd
  refine ⟨hc, ⟨m, hm, hsleeps, hfail⟩, ?_, ?_⟩
  · rw [show (retry_with_backoff func maxAttempts bd md eb).sleeps =
      (List.range m).map (fun i => backoffDelay bd md eb (1 + i)) from hsleeps]
    exact sum_range_map_mono _ hdelay hm
  · intro h h1
    exact hr (fun i hi1 hi2 => h i hi1 (by omega)) h1

/-- Witness for C6 with the decorator's default parameters and a
function that always raises a configured exception. -/
theorem retry_with_backoff_bounds_witness :
    (retry_with_backoff (fun _ => CallOutcome.raiseCaught (α := Unit))
      3 1 30 2).calls ≤ 3 ∧
    (retry_with_backoff (fun _ => CallOutcome.raiseCaught (α := Unit))
      3 1 30 2).result = .reraised :=
  ⟨(retry_with_backoff_bounds _ 3 1 30 2 (by norm_num) (by norm_num)
      (by norm_num)).1,
   (retry_with_backoff_bounds _ 3 1 30 2 (by norm_num) (by norm_num)
      (by norm_num)).2.2.2 (fun _ _ _ => rfl) (by norm_num)⟩

/-! ## Theorems: C2 -/

/-- Counterexample to C2 as stated: with both the inline `api_key` and
the `api_key_env` indirection field absent, `_add_http_connector`
evaluates `os.getenv(None, "")`, which raises `TypeError` — even
though `base_url` is present. -/
theorem add_http_raises_on_missing_key_fields :
    httpConnectorsToAdd
      ⟨some "http://localhost:11434/v1", none, none, none⟩
      (fun _ => none) = .error .typeError := by
  rfl

/-- C2 as amended: when the `api_key_env` field is present or the
inline `api_key` is truthy, the add-HTTP-connector step never raises —
it adds at most one connector, adds none when `base_url` is missing
or falsy, and adds none when the key resolves to the empty string
(inline key falsy and named environment variable unset or empty). -/
theorem add_http_silent_skip :
    ∀ (cfg : HttpCfg) (env : Env),
      (pyTruthy cfg.api_key = true ∨ cfg.api_key_env.isSome = true) →
      (∃ l, httpConnectorsToAdd cfg env = .ok l ∧ l.length ≤ 1) ∧
      (pyTruthy cfg.base_url = false →
        httpConnectorsToAdd cfg env = .ok []) ∧
      (∀ nm, pyTruthy cfg.api_key = false → cfg.api_key_env = some nm →
        (env nm).getD "" = "" → httpConnectorsToAdd cfg env = .ok []) := by
  intro cfg env h
  by_cases hkey : pyTruthy cfg.api_key = true
  · refine ⟨?_, ?_, ?_⟩
    · unfold httpConnectorsToAdd
      rw [if_pos hkey]
      by_cases hb : pyTruthy cfg.base_url = true ∧ cfg.api_key.getD "" ≠ ""
      · exact ⟨[.http (cfg.base_url.getD "") (cfg.api_key.getD "")
          (cfg.timeout.getD 60)], by simp [hb], by simp⟩
      · exact ⟨[], by simp [hb], by simp⟩
    · intro hb
      unfold httpConnectorsToAdd
      rw [if_pos hkey]
      simp [hb]
    · intro nm hk
      exact absurd hkey (by simp [hk])
  · obtain ⟨nm, hnm⟩ : ∃ nm, cfg.api_key_env = some nm := by
      rcases h with h | h
      · exact absurd h hkey
      · exact Option.isSome_iff_exists.mp h
    refine ⟨?_, ?_, ?_⟩
    · unfold httpConnectorsToAdd
      rw [if_neg hkey]
      simp only [hnm, getenvD]
      by_cases hb : pyTruthy cfg.base_url = true ∧ (env nm).getD "" ≠ ""
      · exact ⟨[.http (cfg.base_url.getD "") ((env nm).getD "")
          (cfg.timeout.getD 60)], by simp [hb], by simp⟩
      · exact ⟨[], by simp [hb], by simp⟩
    · intro hb
      unfold httpConnectorsToAdd
      rw [if_neg hkey]
      simp [hnm, getenvD, hb]
    · intro nm2 _ hnm2 hunset
      rw [hnm] at hnm2
      cases hnm2
      unfold httpConnectorsToAdd
      rw [if_neg hkey]
      simp [hnm, getenvD, hunset]

/-- Witness for C2's amended statement at concrete inputs. -/
theorem add_http_silent_skip_witness :
    httpConnectorsToAdd ⟨none, none, some "K_ENV", none⟩ (fun _ => none) =
      .ok [] ∧
    httpConnectorsToAdd ⟨some "http://h", none, some "K_ENV", none⟩
      (fun _ => none) = .ok [] :=
  ⟨(add_http_silent_skip ⟨none, none, some "K_ENV", none⟩ (fun _ => none)
      (Or.inr rfl)).2.1 rfl,
   (add_http_silent_skip ⟨some "http://h", none, some "K_ENV", none⟩
      (fun _ => none) (Or.inr rfl)).2.2 "K_ENV" rfl rfl rfl⟩

/-! ## Theorems: C1 -/

/-- Counterexample to C1 as stated: with a loaded configuration whose
`ollama` record is disabled and `OLLAMA_API_KEY` set in the
environment, `_initialize_connectors` leaves the chain empty and does
not fall back to the environment-variable-only strategy (which would
have produced one HTTP connector). -/
theorem init_no_env_fallback_when_disabled :
    initConnectors
      (some ⟨"hybrid",
        ⟨"hybrid", false, ⟨none, none, none, none⟩, [], ⟨none, none⟩,
          ⟨none, none⟩, ⟨none, none⟩⟩,
        ⟨"hybrid", true, ⟨none, none, none, none⟩, [], ⟨none, none⟩,
          ⟨none, none⟩, ⟨none, none⟩⟩, []⟩)
      "ollama"
      (fun nm => if nm = "OLLAMA_API_KEY" then some "k" else none) =
      .ok [] ∧
    initFromEnv "ollama"
      (fun nm => if nm = "OLLAMA_API_KEY" then some "k" else none) =
      [.http "https://api.ollama.ai/v1" "k" 60] ∧
    ([] : List ConnectorSpec) ≠ [.http "https://api.ollama.ai/v1" "k" 60] := by
  refine ⟨rfl, rfl, by decide⟩

/-- C1 as amended: when a configuration is loaded but the agent's
record is absent or disabled, the chain is empty and the environment
fallback does not run; the environment-variable-only strategy runs
exactly when no configuration is available, and then yields one HTTP
connector against the agent's hard-coded default endpoint when
`{AGENT}_API_KEY` is set and non-empty (for `ollama`/`openrouter`). -/
theorem init_empty_when_absent_or_disabled :
    (∀ (c : ConfigM) (name : String) (env : Env),
      configGetattr c (pyLowerS name) = none →
      initConnectors (some c) name env = .ok []) ∧
    (∀ (c : ConfigM) (name : String) (env : Env) (a : AgentConfigM),
      configGetattr c (pyLowerS name) = some (.agentCfg a) →
      a.enabled = false →
      initConnectors (some c) name env = .ok []) ∧
    (∀ (name : String) (env : Env),
      initConnectors none name env = .ok (initFromEnv name env)) ∧
    (∀ (env : Env) (k : String), env "OLLAMA_API_KEY" = some k → k ≠ "" →
      initFromEnv "ollama" env = [.http "https://api.ollama.ai/v1" k 60]) ∧
    (∀ (env : Env) (k : String), env "OPENROUTER_API_KEY" = some k →
      k ≠ "" →
      initFromEnv "openrouter" env =
        [.http "https://openrouter.ai/api/v1" k 60]) := by
  refine ⟨?_, ?_, fun name env => rfl, ?_, ?_⟩
  · intro c name env h
    simp only [initConnectors]
    rw [h]
  · intro c name env a h he
    simp only [initConnectors]
    rw [h]
    simp [attrTruthy, he]
  · intro env k hk hne
    have h1 : pyLowerS "ollama" = "ollama" := rfl
    simp [initFromEnv, h1, hk, hne]
  · intro env k hk hne
    have h1 : pyLowerS "openrouter" = "openrouter" := rfl
    simp [initFromEnv, h1, hk, hne]

/-- Witness for C1's amended statement at concrete inputs. -/
theorem init_empty_when_absent_or_disabled_witness :
    initConnectors
      (some ⟨"hybrid",
        ⟨"http", true, ⟨none, none, none, none⟩, [], ⟨none, none⟩,
          ⟨none, none⟩, ⟨none, none⟩⟩,
        ⟨"http", false, ⟨none, none, none, none⟩, [], ⟨none, none⟩,
          ⟨none, none⟩, ⟨none, none⟩⟩, []⟩)
      "OpenRouter" (fun _ => none) = .ok [] ∧
    initFromEnv "ollama" (fun _ => some "secret") =
      [.http "https://api.ollama.ai/v1" "secret" 60] :=
  ⟨init_empty_when_absent_or_disabled.2.1 _ "OpenRouter" (fun _ => none)
      ⟨"http", false, ⟨none, none, none, none⟩, [], ⟨none, none⟩,
        ⟨none, none⟩, ⟨none, none⟩⟩ rfl rfl,
   init_empty_when_absent_or_disabled.2.2.2.1 (fun _ => some "secret")
      "secret" rfl (by decide)⟩

/-! ## Theorems: C5 -/

/-- The HTTP add step contributes at most one connector, of HTTP kind. -/
theorem httpConnectorsToAdd_spec :
    ∀ (cfg : HttpCfg) (env : Env) (l : List ConnectorSpec),
      httpConnectorsToAdd cfg env = .ok l →
      l.length ≤ 1 ∧ ∀ x ∈ l, specKind x = .http := by
  intro cfg env l h
  unfold httpConnectorsToAdd at h
  split at h
  · exact absurd h (by simp)
  · split at h
    · injection h with h2
      subst h2
      refine ⟨by simp, ?_⟩
      intro x hx
      simp at hx
      subst hx
      rfl
    · injection h with h2
      subst h2
      exact ⟨by simp, by simp⟩

/-- The SDK add step contributes exactly one connector, of SDK kind. -/
theorem sdkConnectorsToAdd_spec :
    ∀ (n : String) (cfg : List (String × String)),
      (sdkConnectorsToAdd n cfg).length = 1 ∧
      ∀ x ∈ sdkConnectorsToAdd n cfg, specKind x = .sdk := by
  intro n cfg
  refine ⟨rfl, ?_⟩
  intro x hx
  simp [sdkConnectorsToAdd] at hx
  subst hx
  rfl

/-- The MCP add step contributes at most one connector, of MCP kind. -/
theorem mcpConnectorsToAdd_spec :
    ∀ cfg : McpCfg, (mcpConnectorsToAdd cfg).length ≤ 1 ∧
      ∀ x ∈ mcpConnectorsToAdd cfg, specKind x = .mcp := by
  intro cfg
  unfold mcpConnectorsToAdd
  split
  · split
    · refine ⟨by simp, ?_⟩
      intro x hx
      simp at hx
      subst hx
      rfl
    · simp
  · simp

/-- The Docker add step contributes at most one connector, of Docker
kind, when it does not raise. -/
theorem dockerConnectorsToAdd_spec :
    ∀ (cfg : DockerCfg) (l : List ConnectorSpec),
      dockerConnectorsToAdd cfg = .ok l →
      l.length ≤ 1 ∧ ∀ x ∈ l, specKind x = .docker := by
  intro cfg l h
  unfold dockerConnectorsToAdd at h
  split at h
  · injection h with h2
    subst h2
    exact ⟨by simp, by simp⟩
  · split at h
    · injection h with h2
      subst h2
      exact ⟨by simp, by simp⟩
    · split at h
      · exact absurd h (by simp)
      · split at h
        · injection h with h2
          subst h2
          refine ⟨by simp, ?_⟩
          intro x hx
          simp at hx
          subst hx
          rfl
        · exact absurd h (by simp)

/-- The Local add step contributes at most one connector, of
local-binary kind. -/
theorem localConnectorsToAdd_spec :
    ∀ cfg : LocalCfg, (localConnectorsToAdd cfg).length ≤ 1 ∧
      ∀ x ∈ localConnectorsToAdd cfg, specKind x = .localBin := by
  intro cfg
  unfold localConnectorsToAdd
  split
  · split
    · refine ⟨by simp, ?_⟩
      intro x hx
      simp at hx
      subst hx
      rfl
    · simp
  · simp

/-- C5: in `hybrid` mode the chain is the concatenation, in program
order, of the HTTP, SDK, MCP, Docker and Local contributions (each at
most one connector of its own family, the SDK step exactly one); in a
single named mode only that family's add step runs; and within one
`query()` call connectors are tried in strict chain order — the result
of the first available connector returning a non-empty result is
returned, and no later connector is probed or queried. -/
theorem hybrid_order_and_query_order :
    (∀ (n : String) (a : AgentConfigM) (env : Env) (l : List ConnectorSpec),
      a.mode = "hybrid" → buildChain n a env = .ok l →
      ∃ h d, httpConnectorsToAdd a.http env = .ok h ∧
        dockerConnectorsToAdd a.docker = .ok d ∧
        l = h ++ sdkConnectorsToAdd n a.sdk ++ mcpConnectorsToAdd a.mcp ++
          d ++ localConnectorsToAdd a.localCfg ∧
        (h.length ≤ 1 ∧ ∀ x ∈ h, specKind x = .http) ∧
        ((sdkConnectorsToAdd n a.sdk).length = 1 ∧
          ∀ x ∈ sdkConnectorsToAdd n a.sdk, specKind x = .sdk) ∧
        ((mcpConnectorsToAdd a.mcp).length ≤ 1 ∧
          ∀ x ∈ mcpConnectorsToAdd a.mcp, specKind x = .mcp) ∧
        (d.length ≤ 1 ∧ ∀ x ∈ d, specKind x = .docker) ∧
        ((localConnectorsToAdd a.localCfg).length ≤ 1 ∧
          ∀ x ∈ localConnectorsToAdd a.localCfg, specKind x = .localBin)) ∧
    (∀ (n : String) (a : AgentConfigM) (env : Env), a.mode = "http" →
      buildChain n a env = httpConnectorsToAdd a.http env) ∧
    (∀ (n : String) (a : AgentConfigM) (env : Env), a.mode = "sdk" →
      buildChain n a env = .ok (sdkConnectorsToAdd n a.sdk)) ∧
    (∀ (n : String) (a : AgentConfigM) (env : Env), a.mode = "mcp" →
      buildChain n a env = .ok (mcpConnectorsToAdd a.mcp)) ∧
    (∀ (n : String) (a : AgentConfigM) (env : Env), a.mode = "docker" →
      buildChain n a env = dockerConnectorsToAdd a.docker) ∧
    (∀ (n : String) (a : AgentConfigM) (env : Env), a.mode = "local" →
      buildChain n a env = .ok (localConnectorsToAdd a.localCfg)) ∧
    (∀ cs : List ConnectorB, universalQuery cs = (universalQueryProbed cs).1) ∧
    (∀ (pre post : List ConnectorB) (c : ConnectorB),
      (∀ c' ∈ pre, connSucceeds c' = false) → connSucceeds c = true →
      universalQueryProbed (pre ++ c :: post) =
        (connQuery c, pre.length + 1)) := by
  refine ⟨?_, ?_, ?_, ?_, ?_, ?_, ?_, ?_⟩
  · intro n a env l hm hb
    unfold buildChain at hb
    rw [hm] at hb
    norm_num at hb
    split at hb
    · exact absurd hb (by simp)
    · rename_i h hh
      split at hb
      · exact absurd hb (by simp)
      · rename_i d hd
        injection hb with hb2
        refine ⟨h, d, hh, hd, ?_, ?_, ?_, ?_, ?_, ?_⟩
        · rw [← hb2]
          simp [List.append_assoc]
        · exact httpConnectorsToAdd_spec a.http env h hh
        · exact sdkConnectorsToAdd_spec n a.sdk
        · exact mcpConnectorsToAdd_spec a.mcp
        · exact dockerConnectorsToAdd_spec a.docker d hd
        · exact localConnectorsToAdd_spec a.localCfg
  · intro n a env hm
    unfold buildChain
    rw [hm]
    cases hh : httpConnectorsToAdd a.http env with
    | error e => simp [hh]
    | ok h => simp [hh]
  · intro n a env hm
    unfold buildChain
    rw [hm]
    simp
  · intro n a env hm
    unfold buildChain
    rw [hm]
    simp
  · intro n a env hm
    unfold buildChain
    rw [hm]
    cases hd : dockerConnectorsToAdd a.docker with
    | error e => simp [hd]
    | ok d => simp [hd]
  · intro n a env hm
    unfold buildChain
    rw [hm]
    simp
  · intro cs
    induction cs with
    | nil => rfl
    | cons c rest ih =>
      by_cases hav : connIsAvailable c
      · by_cases hq : connQuery c ≠ ""
        · simp [universalQuery, universalQueryProbed, hav, hq]
        · simp [universalQuery, universalQueryProbed, hav, hq, ih]
      · simp at hav
        simp [universalQuery, universalQueryProbed, hav, ih]
  · intro pre post c
    induction pre with
    | nil =>
      intro _ hc
      have hc2 : connIsAvailable c = true ∧ connQuery c ≠ "" := by
        simpa [connSucceeds, Bool.and_eq_true, decide_eq_true_eq] using hc
      simp [universalQueryProbed, hc2.1, hc2.2]
    | cons p pre ih =>
      intro hpre hc
      have hp := hpre p (by simp)
      have hrest := ih (fun c' hmem => hpre c' (List.mem_cons_of_mem _ hmem)) hc
      by_cases havp : connIsAvailable p = true
      · by_cases hqp : connQuery p = ""
        · simp [universalQueryProbed, havp, hqp, hrest]
        · exact absurd hp (by simp [connSucceeds, havp, hqp])
      · simp at havp
        simp [universalQueryProbed, havp, hrest]

/-- Witness for C5 at concrete inputs: in the chain
MCP-then-HTTP-then-HTTP, the first available connector with a
non-empty result wins after exactly two probes; and a `sdk`-mode agent
builds only the SDK contribution. -/
theorem hybrid_order_and_query_order_witness :
    universalQueryProbed
      ([ConnectorB.mcp] ++
        (ConnectorB.http ⟨.ok 200, .ok (200, some "hi")⟩) ::
        [ConnectorB.http ⟨.ok 200, .ok (200, some "later")⟩]) =
      (connQuery (ConnectorB.http ⟨.ok 200, .ok (200, some "hi")⟩),
        [ConnectorB.mcp].length + 1) ∧
    buildChain "ollama"
      ⟨"sdk", true, ⟨none, none, none, none⟩, [], ⟨none, none⟩,
        ⟨none, none⟩, ⟨none, none⟩⟩ (fun _ => none) =
      .ok (sdkConnectorsToAdd "ollama" []) :=
  ⟨hybrid_order_and_query_order.2.2.2.2.2.2.2
      [ConnectorB.mcp] [ConnectorB.http ⟨.ok 200, .ok (200, some "later")⟩]
      (ConnectorB.http ⟨.ok 200, .ok (200, some "hi")⟩)
      (by decide) (by decide),
   hybrid_order_and_query_order.2.2.1 "ollama"
      ⟨"sdk", true, ⟨none, none, none, none⟩, [], ⟨none, none⟩,
        ⟨none, none⟩, ⟨none, none⟩⟩ (fun _ => none) rfl⟩

/-! ## Theorems: C3 -/

/-- Counterexample to C3 as stated: with `a` absent from the loaded
structure and a dict default containing the later segment `b` as a
key, `get("a.b", default)` walks into the default and returns the
value found there — not the default itself. -/
theorem configGet_descends_into_dict_default :
    configGet (.vdict []) (strL "a.b")
      (.vdict [(strL "b", .vint 42 [])]) = .vint 42 [] ∧
    PyVal.vint 42 [] ≠ .vdict [(strL "b", .vint 42 [])] := by
  refine ⟨rfl, ?_⟩
  intro h
  exact PyVal.noConfusion h

/-- Once the walk has substituted a default that exposes none of the
remaining segments as a dict key or attribute, every further step
keeps returning that default. -/
theorem configGetParts_opaque_default (dflt : PyVal) :
    ∀ ps : List (List Char),
      (∀ p ∈ ps, hasChildNamed dflt p = false) →
      configGetParts ps dflt dflt = dflt := by
  intro ps
  induction ps with
  | nil => intro _; cases dflt <;> rfl
  | cons p ps ih =>
    intro h
    have hp := h p (by simp)
    have ht : ∀ q ∈ ps, hasChildNamed dflt q = false :=
      fun q hq => h q (List.mem_cons_of_mem _ hq)
    have hrec := ih ht
    cases dflt with
    | vdict entries =>
      have hl : entries.lookup p = none := by
        cases hel : entries.lookup p with
        | none => rfl
        | some v => simp [hasChildNamed, hel] at hp
      simp only [configGetParts, dictGetD, hl, Option.getD_none]
      exact hrec
    | vobj attrs =>
      have hl : (attrsOf (PyVal.vobj attrs)).lookup p = none := by
        cases hel : (attrsOf (PyVal.vobj attrs)).lookup p with
        | none => rfl
        | some v => simp [hasChildNamed, hel] at hp
      simp [configGetParts, hl]
    | vstr s attrs =>
      have hl : (attrsOf (PyVal.vstr s attrs)).lookup p = none := by
        cases hel : (attrsOf (PyVal.vstr s attrs)).lookup p with
        | none => rfl
        | some v => simp [hasChildNamed, hel] at hp
      simp [configGetParts, hl]
    | vint n attrs =>
      have hl : (attrsOf (PyVal.vint n attrs)).lookup p = none := by
        cases hel : (attrsOf (PyVal.vint n attrs)).lookup p with
        | none => rfl
        | some v => simp [hasChildNamed, hel] at hp
      simp [configGetParts, hl]
    | vbool b attrs =>
      have hl : (attrsOf (PyVal.vbool b attrs)).lookup p = none := by
        cases hel : (attrsOf (PyVal.vbool b attrs)).lookup p with
        | none => rfl
        | some v => simp [hasChildNamed, hel] at hp
      simp [configGetParts, hl]
    | vnone attrs =>
      have hl : (attrsOf (PyVal.vnone attrs)).lookup p = none := by
        cases hel : (attrsOf (PyVal.vnone attrs)).lookup p with
        | none => rfl
        | some v => simp [hasChildNamed, hel] at hp
      simp [configGetParts, hl]

/-- C3 as amended: `ConfigLoader.get` never raises, and provided the
default value exposes no walked segment as a dict key or object
attribute, it returns exactly the value reached by walking dict keys
and object attributes (built-in attributes of non-dict leaves
included), and the default the first time a segment is neither a key
nor an attribute of the current value.  (When the default itself
exposes a later segment — e.g. a dict default containing it as a
key — the walk continues inside the substituted default, as the
counterexample shows.) -/
theorem configGet_refines_path_lookup :
    ∀ (root : PyVal) (key : List Char) (dflt : PyVal),
      (∀ p ∈ splitOnChar '.' key, hasChildNamed dflt p = false) →
      configGet root key dflt =
        (specPathLookup root (splitOnChar '.' key)).getD dflt := by
  have main : ∀ (dflt : PyVal) (parts : List (List Char)),
      (∀ p ∈ parts, hasChildNamed dflt p = false) →
      ∀ root : PyVal,
        configGetParts parts root dflt =
          (specPathLookup root parts).getD dflt := by
    intro dflt parts
    induction parts with
    | nil => intro _ root; cases root <;> rfl
    | cons p ps ih =>
      intro h root
      have ht : ∀ q ∈ ps, hasChildNamed dflt q = false :=
        fun q hq => h q (List.mem_cons_of_mem _ hq)
      cases root with
      | vdict entries =>
        simp only [configGetParts, specPathLookup, dictGetD]
        cases hl : entries.lookup p with
        | some v => simpa using ih ht v
        | none =>
          simp only [Option.getD_none]
          show configGetParts ps dflt dflt = dflt
          exact configGetParts_opaque_default dflt ps ht
      | vobj attrs =>
        simp only [configGetParts, specPathLookup]
        cases hl : (attrsOf (PyVal.vobj attrs)).lookup p with
        | some v => simpa using ih ht v
        | none => simp
      | vstr s attrs =>
        simp only [configGetParts, specPathLookup]
        cases hl : (attrsOf (PyVal.vstr s attrs)).lookup p with
        | some v => simpa using ih ht v
        | none => simp
      | vint n attrs =>
        simp only [configGetParts, specPathLookup]
        cases hl : (attrsOf (PyVal.vint n attrs)).lookup p with
        | some v => simpa using ih ht v
        | none => simp
      | vbool b attrs =>
        simp only [configGetParts, specPathLookup]
        cases hl : (attrsOf (PyVal.vbool b attrs)).lookup p with
        | some v => simpa using ih ht v
        | none => simp
      | vnone attrs =>
        simp only [configGetParts, specPathLookup]
        cases hl : (attrsOf (PyVal.vnone attrs)).lookup p with
        | some v => simpa using ih ht v
        | none => simp
  intro root key dflt h
  exact main dflt (splitOnChar '.' key) h root

/-- Witness for C3's amended statement at concrete inputs: on a
structure containing the string leaf `agent_mode` with its `upper`
attribute, `get("agent_mode.upper", 7)` returns the attribute value
reached by the walk, and `get("a.b", 7)` returns the default (the
integer default exposes neither `a` nor `b` as an attribute). -/
theorem configGet_refines_path_lookup_witness :
    configGet
      (.vdict [(strL "agent_mode",
        .vstr (strL "hybrid") [(strL "upper", .vobj [])])])
      (strL "agent_mode.upper") (.vint 7 []) =
      (specPathLookup
        (.vdict [(strL "agent_mode",
          .vstr (strL "hybrid") [(strL "upper", .vobj [])])])
        (splitOnChar '.' (strL "agent_mode.upper"))).getD (.vint 7 []) ∧
    configGet (.vdict []) (strL "a.b") (.vint 7 []) =
      (specPathLookup (.vdict [])
        (splitOnChar '.' (strL "a.b"))).getD (.vint 7 []) :=
  ⟨configGet_refines_path_lookup
      (.vdict [(strL "agent_mode",
        .vstr (strL "hybrid") [(strL "upper", .vobj [])])])
      (strL "agent_mode.upper") (.vint 7 []) (by decide),
   configGet_refines_path_lookup (.vdict []) (strL "a.b") (.vint 7 [])
      (by decide)⟩

/-! ## Theorems: C8 -/

/-- Dropping whitespace from a list ending in a non-whitespace
character keeps that final character. -/
theorem dropWhile_append_single (xs : List Char) (a : Char)
    (ha : isPyWS a = false) :
    ∃ ys, (xs ++ [a]).dropWhile isPyWS = ys ++ [a] := by
  induction xs with
  | nil =>
    refine ⟨[], ?_⟩
    simp [List.dropWhile, ha]
  | cons x xs ih =>
    by_cases hx : isPyWS x
    · simpa [List.dropWhile_cons, hx] using ih
    · exact ⟨x :: xs, by simp [List.dropWhile_cons, hx]⟩

/-- A list whose `dropWhile` of whitespace is itself has a
non-whitespace head. -/
theorem head_not_ws (c : Char) (t : List Char)
    (h : (c :: t).dropWhile isPyWS = c :: t) : isPyWS c = false := by
  by_contra hc
  rw [Bool.not_eq_false] at hc
  rw [List.dropWhile_cons, if_pos hc] at h
  have h1 : (t.dropWhile isPyWS).length ≤ t.length :=
    (List.dropWhile_suffix isPyWS).length_le
  have h2 := congrArg List.length h
  simp at h2
  omega

/-- `dropWhile` keeps a list whose head fails the predicate. -/
theorem dropWhile_eq_self_of_head (c : Char) (t : List Char)
    (hc : isPyWS c = false) : (c :: t).dropWhile isPyWS = c :: t := by
  rw [List.dropWhile_cons, if_neg (by simp [hc])]

/-- `strip()` of a line starting with `#` still starts with `#`. -/
theorem pyStrip_hash (t : List Char) :
    startsHash (pyStrip ('#' :: t)) = true := by
  unfold pyStrip
  rw [dropWhile_eq_self_of_head '#' t (by decide)]
  have hrev : ('#' :: t).reverse = t.reverse ++ ['#'] := by simp
  rw [hrev]
  obtain ⟨ys, hys⟩ := dropWhile_append_single t.reverse '#' (by decide)
  rw [hys]
  simp [startsHash]

/-- A `strip()`-invariant list stays fixed under `pyStrip`. -/
theorem pyStrip_invariant (l : List Char)
    (h1 : l.dropWhile isPyWS = l)
    (h2 : l.reverse.dropWhile isPyWS = l.reverse) :
    pyStrip l = l := by
  unfold pyStrip
  rw [h1, h2, List.reverse_reverse]

/-- A well-formed `key=value` line is `strip()`-invariant. -/
theorem pyStrip_goodline (k v : List Char) (hk0 : k ≠ [])
    (hkL : k.dropWhile isPyWS = k)
    (hvR : v.reverse.dropWhile isPyWS = v.reverse) :
    pyStrip (k ++ '=' :: v) = k ++ '=' :: v := by
  have hrev : (k ++ '=' :: v).reverse = v.reverse ++ '=' :: k.reverse := by
    simp
  apply pyStrip_invariant
  · cases k with
    | nil => exact absurd rfl hk0
    | cons c k2 =>
      rw [List.cons_append]
      exact dropWhile_eq_self_of_head c _ (head_not_ws c k2 hkL)
  · rw [hrev]
    cases hv : v.reverse with
    | nil =>
      simp only [hv, List.nil_append]
      exact dropWhile_eq_self_of_head '=' _ (by decide)
    | cons d w =>
      rw [hv] at hvR
      rw [List.cons_append]
      exact dropWhile_eq_self_of_head d _ (head_not_ws d w hvR)

/-- `split('=', 1)` on a line whose key part contains no `=` cuts
exactly at the written separator. -/
theorem splitOnceEq_append (k v : List Char)
    (hk : ∀ c ∈ k, ¬ c = '=') :
    splitOnceEq (k ++ '=' :: v) = (k, v) := by
  induction k with
  | nil => simp [splitOnceEq]
  | cons c k2 ih =>
    have hc : ¬ c = '=' := hk c (by simp)
    rw [List.cons_append]
    unfold splitOnceEq
    rw [if_neg hc]
    rw [ih (fun c2 hc2 => hk c2 (by simp [hc2]))]

/-- A `#`-line is skipped by the load loop. -/
theorem loadStep_hash (d : List Char → Option (List Char)) (t : List Char) :
    loadStep d ('#' :: t) = d := by
  unfold loadStep
  have h := pyStrip_hash t
  rw [if_neg]
  intro hcond
  rw [h] at hcond
  exact absurd hcond.2.1 (by simp)

/-- A blank line is skipped by the load loop. -/
theorem loadStep_blank (d : List Char → Option (List Char)) :
    loadStep d [] = d := by
  unfold loadStep
  rw [if_neg]
  intro hcond
  exact absurd hcond.1 (by simp [pyStrip])

/-- The header written by `save_config` contributes nothing to the
reloaded dict. -/
theorem load_header (ts : List Char) (d : List Char → Option (List Char)) :
    (headerLines ts).foldl loadStep d = d := by
  have h1 : (strL "# " ++ List.replicate 76 '=') =
      '#' :: (' ' :: List.replicate 76 '=') := rfl
  have h2 : strL "# BrowserOS Knowledge Base - Configuration" =
      '#' :: strL " BrowserOS Knowledge Base - Configuration" := rfl
  have h3 : (strL "# Modified: " ++ ts) =
      '#' :: (strL " Modified: " ++ ts) := rfl
  simp only [headerLines, List.foldl, h1, h2, h3, loadStep_hash,
    loadStep_blank]

/-- A well-formed `key=value` line stores exactly that pair. -/
theorem loadStep_goodline (d : List Char → Option (List Char))
    (k v : List Char) (hk : GoodKey k) (hv : GoodVal v) :
    loadStep d (k ++ '=' :: v) = dictUpd d k v := by
  obtain ⟨hk0, hkH, hkC, hkL, hkR⟩ := hk
  obtain ⟨hvC, hvL, hvR⟩ := hv
  unfold loadStep
  rw [pyStrip_goodline k v hk0 hkL hvR]
  rw [if_pos ?side]
  case side =>
    refine ⟨by simp [hk0], ?_, ?_⟩
    · cases k with
      | nil => exact absurd rfl hk0
      | cons c k2 => simpa [startsHash] using hkH
    · simp [List.any_append]
  rw [splitOnceEq_append k v (fun c hc => (hkC c hc).1)]
  show dictUpd d (pyStrip k) (pyStrip v) = dictUpd d k v
  rw [pyStrip_invariant k hkL hkR, pyStrip_invariant v hvL hvR]

/-- Folding the settings lines over a dict never changes a key that
none of the pairs uses. -/
theorem load_foldl_untouched :
    ∀ (pairs : List (List Char × List Char))
      (d : List Char → Option (List Char)) (k : List Char),
      (∀ p ∈ pairs, GoodKey p.1 ∧ GoodVal p.2) →
      (∀ p ∈ pairs, p.1 ≠ k) →
      (pairs.map (fun p => p.1 ++ '=' :: p.2)).foldl loadStep d k = d k := by
  intro pairs
  induction pairs with
  | nil => intro d k _ _; rfl
  | cons q rest ih =>
    intro d k hg hk
    have hq := hg q (by simp)
    rw [List.map_cons, List.foldl_cons,
      loadStep_goodline d q.1 q.2 hq.1 hq.2]
    rw [ih _ k (fun p hp => hg p (List.mem_cons_of_mem _ hp))
      (fun p hp => hk p (List.mem_cons_of_mem _ hp))]
    unfold dictUpd
    rw [if_neg]
    intro hkq
    exact hk q (by simp) hkq.symm

/-- Folding the settings lines over a dict stores each pair of a
duplicate-free, well-formed configuration. -/
theorem load_foldl_mem :
    ∀ (pairs : List (List Char × List Char))
      (d : List Char → Option (List Char)) (k v : List Char),
      (∀ p ∈ pairs, GoodKey p.1 ∧ GoodVal p.2) →
      pairs.Pairwise (fun p q => p.1 ≠ q.1) →
      (k, v) ∈ pairs →
      (pairs.map (fun p => p.1 ++ '=' :: p.2)).foldl loadStep d k = some v := by
  intro pairs
  induction pairs with
  | nil => intro d k v _ _ hin; cases hin
  | cons q rest ih =>
    intro d k v hg hdis hin
    have hq := hg q (by simp)
    rw [List.map_cons, List.foldl_cons,
      loadStep_goodline d q.1 q.2 hq.1 hq.2]
    rcases List.mem_cons.mp hin with heq | hmem
    · rw [load_foldl_untouched rest _ k
        (fun p hp => hg p (List.mem_cons_of_mem _ hp)) ?keys]
      case keys =>
        intro p hp
        have := (List.pairwise_cons.mp hdis).1 p hp
        rw [← heq] at this
        exact fun hpk => this hpk.symm
      unfold dictUpd
      rw [← heq]
      simp
    · exact ih _ k v (fun p hp => hg p (List.mem_cons_of_mem _ hp))
        (List.pairwise_cons.mp hdis).2 hmem

/-- Inserting into a sorted list is a permutation of consing. -/
theorem insertSorted_perm (le : α → α → Bool) (x : α) :
    ∀ l : List α, (insertSorted le x l).Perm (x :: l) := by
  intro l
  induction l with
  | nil => simp [insertSorted]
  | cons y t ih =>
    unfold insertSorted
    by_cases h : le x y
    · rw [if_pos h]
    · rw [if_neg h]
      exact (ih.cons y).trans (List.Perm.swap x y t)

/-- `sorted(...)` permutes the configuration pairs. -/
theorem sortPairs_perm (l : List (List Char × List Char)) :
    (sortPairs l).Perm l := by
  induction l with
  | nil => exact List.Perm.nil
  | cons x t ih =>
    exact (insertSorted_perm pairLe x (sortPairs t)).trans (ih.cons x)

end BrowserOSKB
